import Mathlib

/-!
Verification of the zomathon kitchen-intelligence server (`src/server.ts`)
against its natural-language specification.

The repository's only executable source is an Express server serving a mock
dashboard: a constant `/api/stats` payload, a randomized `/api/simulation/data`
payload, and a sqlite table created at startup.  The spec additionally
describes a core (SignalBus, OrderEstimator, RushAggregator,
EstimationService) that has no implementation under `src/`; where a claim is
decided by that missing core, the relevant operation is modelled from the
spec's own words (each such definition is marked `Modelled from the spec:`).

Numbers are embedded as rationals (`ℚ`); JavaScript `Math.floor` becomes
`Int.floor`, `Math.random()` becomes an explicit stream of rationals assumed
to lie in `[0, 1)`.
-/

namespace Zomathon

/-- A row of the sqlite `orders` table declared by the `CREATE TABLE`
statement at `src/server.ts` lines 9-20. -/
structure OrderRow where
  id : String
  restaurant_id : String
  order_time : Option ℚ
  manual_for_time : Option ℚ
  actual_ready_time : Option ℚ
  rider_arrival_time : Option ℚ
  total_kitchen_load : Option ℤ
  source : Option String
deriving DecidableEq

/-- The database state: the `orders` table, `none` while it does not exist. -/
structure DbState where
  ordersTable : Option (List OrderRow)
deriving DecidableEq

/-- `CREATE TABLE IF NOT EXISTS orders (...)` run at startup: creates an empty
table when absent, leaves an existing table and its rows untouched. -/
def initDb (db : DbState) : DbState :=
  { ordersTable := some (db.ordersTable.getD []) }

/-- An inbound HTTP request as far as the two API handlers can see it:
both ignore path parameters, headers and body entirely. -/
structure Request where
  path : String
  headers : List (String × String)
  body : String
deriving DecidableEq

/-- One entry of the `liveRush.sources` array in the `/api/stats` payload. -/
structure RushSource where
  name : String
  volume : ℚ
  weight : ℚ
deriving DecidableEq

/-- The `liveRush` object in the `/api/stats` payload. -/
structure LiveRush where
  index : ℚ
  status : String
  sources : List RushSource
deriving DecidableEq

/-- The JSON payload of `GET /api/stats`. -/
structure StatsResponse where
  avgRiderWait : ℚ
  etaErrorP90 : ℚ
  orderVolume : ℕ
  activeMerchants : ℕ
  improvement : ℚ
  liveRush : LiveRush
deriving DecidableEq

/-- The literal mock object returned by the `/api/stats` handler
(`src/server.ts` lines 31-46). -/
def statsResponse : StatsResponse :=
  { avgRiderWait := 4.2
    etaErrorP90 := 8.5
    orderVolume := 1250
    activeMerchants := 320
    improvement := 18.5
    liveRush :=
      { index := 78
        status := "High"
        sources :=
          [ { name := "Zomato Orders", volume := 45, weight := 0.4 },
            { name := "Competitor Orders", volume := 32, weight := 0.35 },
            { name := "In-Store Dining", volume := 22, weight := 0.25 } ] } }

/-- The `/api/stats` handler (`src/server.ts` lines 29-47): it reads nothing
from the request and returns the constant mock payload. -/
def statsHandler (_req : Request) : StatsResponse := statsResponse

/-- One element of the `/api/simulation/data` payload.  `status` is an
`Option` because JavaScript array indexing out of bounds yields `undefined`. -/
structure SimOrder where
  id : String
  status : Option String
  progress : ℤ
  isBiased : Bool
  load : ℤ
deriving DecidableEq

/-- The status pool `['preparing', 'ready', 'picked_up']` of
`src/server.ts` line 53. -/
def simStatuses : List String := ["preparing", "ready", "picked_up"]

/-- JavaScript array indexing with an integer index: `undefined` (here
`none`) when negative or past the end. -/
def jsIndex (l : List String) (k : ℤ) : Option String :=
  if 0 ≤ k then l.get? k.toNat else none

/-- The element built for index `i` by the `/api/simulation/data` handler
(`src/server.ts` lines 51-57).  `rand` is the stream of `Math.random()`
results; the four calls for element `i` are `rand (4*i)` … `rand (4*i+3)`
in the source's evaluation order (status, progress, isBiased, load). -/
def simOrderAt (rand : ℕ → ℚ) (i : ℕ) : SimOrder :=
  { id := "ORD-" ++ toString i
    status := jsIndex simStatuses ⌊rand (4 * i) * 3⌋
    progress := ⌊rand (4 * i + 1) * 100⌋
    isBiased := decide ((7 : ℚ) / 10 < rand (4 * i + 2))
    load := ⌊rand (4 * i + 3) * 10⌋ + 1 }

/-- The full `/api/simulation/data` payload: `Array.from({length: 20}).map`. -/
def simulationData (rand : ℕ → ℚ) : List SimOrder :=
  (List.range 20).map (simOrderAt rand)

/-- The response produced by the Express app for a request: one of the two
API payloads, or passthrough to the Vite/static middleware. -/
inductive ApiResponse where
  | stats (body : StatsResponse)
  | simulation (body : List SimOrder)
  | passthrough
deriving DecidableEq

/-- The server's request dispatch (`src/server.ts` lines 29-73) together with
the database state: neither API handler mentions `db`, so the state passes
through untouched. -/
def handleRequest (db : DbState) (rand : ℕ → ℚ) (req : Request) :
    DbState × ApiResponse :=
  if req.path = "/api/stats" then (db, ApiResponse.stats (statsHandler req))
  else if req.path = "/api/simulation/data" then
    (db, ApiResponse.simulation (simulationData rand))
  else (db, ApiResponse.passthrough)

/-- The badge class chosen by `LiveRushIndicator` (`src/server.ts` lines
129-131): rose styling exactly when the index exceeds 70. -/
def liveRushBadgeClass (index : ℚ) : String :=
  if 70 < index then "bg-rose-50 text-rose-600" else "bg-emerald-50 text-emerald-600"

/-! ## RushAggregator, modelled from the spec

The spec's §4.3 RushAggregator has no implementation under `src/`; the
definitions below follow its words. -/

/-- The three status bands of the rush index. -/
inductive RushBand where
  | low
  | moderate
  | high
deriving DecidableEq

/-- Modelled from the spec: `status = High if index > 70 else Moderate if
index > 40 else Low` (§4.3); the RushAggregator itself is absent from
`src/`. -/
def rushBandOf (index : ℤ) : RushBand :=
  if 70 < index then RushBand.high
  else if 40 < index then RushBand.moderate
  else RushBand.low

/-- The display name of a band, as it appears in the served JSON. -/
def bandName : RushBand → String
  | RushBand.high => "High"
  | RushBand.moderate => "Moderate"
  | RushBand.low => "Low"

/-- Total count of active orders over all sources.  A restaurant window is a
list of `(activeCount, weight)` pairs, one per source. -/
def totalActive (counts : List (ℕ × ℚ)) : ℕ :=
  (counts.map Prod.fst).sum

/-- Modelled from the spec: `volumePct[source] = activeCount[source] /
totalActive * 100` (0 if `totalActive == 0`) (§4.3). -/
def volumePct (total : ℕ) (c : ℕ) : ℚ :=
  if total = 0 then 0 else (c : ℚ) / (total : ℚ) * 100

/-- The weighted sum `Σ_source volumePct[source] * weight[source]`. -/
def rushWeighted (counts : List (ℕ × ℚ)) : ℚ :=
  (counts.map (fun p => volumePct (totalActive counts) p.1 * p.2)).sum

/-- Clamp to the `[0, 100]` range. -/
def clampIndex (x : ℤ) : ℤ := max 0 (min 100 x)

/-- Modelled from the spec: `index = round(Σ_source volumePct[source] *
weight[source])`, clamped to `[0, 100]` (§4.3). -/
def rushIndex (counts : List (ℕ × ℚ)) : ℤ :=
  clampIndex (round (rushWeighted counts))

/-- The snapshot served by `getRushIndex`: index, status band, and the
per-source volume percentages. -/
structure RushSnapshot where
  index : ℤ
  band : RushBand
  bySource : List ℚ
deriving DecidableEq

/-- Modelled from the spec: `getRushIndex(restaurantId) → {index, status,
bySource}` (§4.4), a total function that never raises: a restaurant with no
active orders yields the zero state rather than an error. -/
def getRushIndex (counts : List (ℕ × ℚ)) : RushSnapshot :=
  { index := rushIndex counts
    band := rushBandOf (rushIndex counts)
    bySource := counts.map (fun p => volumePct (totalActive counts) p.1) }

/-! ## Configuration validation, modelled from the spec -/

/-- The startup-fatal configuration error of the spec's taxonomy (§7). -/
inductive ConfigError where
  | configValidation
deriving DecidableEq

/-- Modelled from the spec: `Σ sourceWeights == 1.0 ± 1e-6` is enforced at
config load, otherwise `ConfigValidationError` (§8); no configuration loader
exists under `src/`. -/
def validateSourceWeights (ws : List ℚ) : Except ConfigError Unit :=
  if |ws.sum - 1| ≤ 1 / 1000000 then Except.ok ()
  else Except.error ConfigError.configValidation

/-- The configuration the core consumes at startup (§6). -/
structure ServiceConfig where
  sourceWeights : List ℚ
deriving DecidableEq

/-- Modelled from the spec: startup validates the configuration and the
service refuses to start on `ConfigValidationError` (§7). -/
def startService (cfg : ServiceConfig) : Except ConfigError ServiceConfig :=
  (validateSourceWeights cfg.sourceWeights).map (fun _ => cfg)

/-! ## OrderEstimator, modelled from the spec

The spec's §4.2 per-order state machine has no implementation under `src/`;
timestamps are rationals (minutes). -/

/-- Kitchen-display stages, ordered `none → started → plating → ready`. -/
inductive KdsStage where
  | none
  | started
  | plating
  | ready
deriving DecidableEq

/-- Position of a stage in the forward order. -/
def stageRank : KdsStage → ℕ
  | KdsStage.none => 0
  | KdsStage.started => 1
  | KdsStage.plating => 2
  | KdsStage.ready => 3

/-- Lifecycle states of §4.2. -/
inductive LifeState where
  | placed
  | preparing
  | manuallyMarked
  | validated
  | biasFlagged
  | pickedUp
  | abandoned
deriving DecidableEq

/-- `PickedUp` and `Abandoned` are the terminal states. -/
def isTerminal : LifeState → Bool
  | LifeState.pickedUp => true
  | LifeState.abandoned => true
  | _ => false

/-- The per-order record of the spec's data model (§3). -/
structure Order where
  placedAt : ℚ
  manualReadyAt : Option ℚ
  kdsStage : KdsStage
  riderProximityAt : Option ℚ
  correctedReadyAt : Option ℚ
  biasDetected : Bool
  state : LifeState
deriving DecidableEq

/-- The order created by `OrderPlaced` at time `t` (§4.2). -/
def initOrder (t : ℚ) : Order :=
  { placedAt := t
    manualReadyAt := Option.none
    kdsStage := KdsStage.none
    riderProximityAt := Option.none
    correctedReadyAt := Option.none
    biasDetected := false
    state := LifeState.placed }

/-- The estimator's configuration: proximity window and correction factor. -/
structure EstimatorConfig where
  proximityBiasWindow : ℚ
  correctionFactor : ℚ
deriving DecidableEq

/-- Result of the correction algorithm. -/
structure CorrectionResult where
  biasDetected : Bool
  correctedReadyAt : ℚ
deriving DecidableEq

/-- Modelled from the spec: the correction algorithm of §4.2.  Rule 2 fires
when a recorded rider proximity precedes the manual mark by at most the
configured window and stretches the elapsed prep time by `correctionFactor`;
rule 3 flags (without numeric adjustment) a mark made before the KDS stage
reached `ready`. -/
def runCorrection (cfg : EstimatorConfig) (placedAt manualReadyAt : ℚ)
    (riderProximityAt : Option ℚ) (stage : KdsStage) : CorrectionResult :=
  let proximityBias :=
    match riderProximityAt with
    | some r =>
        decide (r < manualReadyAt) &&
        decide (manualReadyAt - r ≤ cfg.proximityBiasWindow)
    | Option.none => false
  let corrected :=
    if proximityBias then
      placedAt + (manualReadyAt - placedAt) * cfg.correctionFactor
    else manualReadyAt
  let kdsBias := decide (stage ≠ KdsStage.ready)
  { biasDetected := proximityBias || kdsBias
    correctedReadyAt := corrected }

/-- The non-placement signal events of §4.1. -/
inductive Event where
  | manualReadyMarked (t : ℚ)
  | kdsStageUpdated (t : ℚ) (s : KdsStage)
  | riderProximityDetected (t : ℚ)
  | orderPickedUp (t : ℚ)
  | timeout
deriving DecidableEq

/-- The per-event errors of the spec's taxonomy (§7) that the estimator can
return. -/
inductive EstError where
  | staleEvent
  | invalidStageTransition
  | duplicateMark
  | terminalState
deriving DecidableEq

/-- The timestamp an event carries, if any. -/
def eventTime : Event → Option ℚ
  | Event.manualReadyMarked t => some t
  | Event.kdsStageUpdated t _ => some t
  | Event.riderProximityDetected t => some t
  | Event.orderPickedUp t => some t
  | Event.timeout => Option.none

/-- A forward KDS movement observed while still `Placed` moves the lifecycle
to `Preparing` (§4.2); other states are unaffected by KDS updates. -/
def advanceOnKds : LifeState → LifeState
  | LifeState.placed => LifeState.preparing
  | st => st

/-- `ManualReadyMarked` is accepted while in `Placed` or `Preparing` (§4.2). -/
def canMark : LifeState → Bool
  | LifeState.placed => true
  | LifeState.preparing => true
  | _ => false

/-- The state-machine dispatch on the event kind, after the terminal and
staleness guards have passed. -/
def stepOrderCore (cfg : EstimatorConfig) (o : Order) (e : Event) :
    Except EstError Order :=
  match e with
  | Event.kdsStageUpdated _ s =>
      if stageRank s < stageRank o.kdsStage then
        Except.error EstError.invalidStageTransition
      else if stageRank o.kdsStage < stageRank s then
        Except.ok { o with kdsStage := s, state := advanceOnKds o.state }
      else Except.ok o
  | Event.riderProximityDetected t =>
      match o.riderProximityAt with
      | some _ => Except.ok o
      | Option.none => Except.ok { o with riderProximityAt := some t }
  | Event.manualReadyMarked t =>
      if canMark o.state then
        let r := runCorrection cfg o.placedAt t o.riderProximityAt o.kdsStage
        Except.ok { o with
          manualReadyAt := some t
          correctedReadyAt := some r.correctedReadyAt
          biasDetected := r.biasDetected
          state := if r.biasDetected then LifeState.biasFlagged
                   else LifeState.validated }
      else Except.error EstError.duplicateMark
  | Event.orderPickedUp t =>
      match o.correctedReadyAt with
      | Option.none =>
          Except.ok { o with
            state := LifeState.pickedUp
            biasDetected := true
            correctedReadyAt := some t }
      | some _ => Except.ok { o with state := LifeState.pickedUp }
  | Event.timeout => Except.ok { o with state := LifeState.abandoned }

/-- The §4.1 staleness check: an event whose timestamp precedes the order's
`placedAt` is stale. -/
def isStale (o : Order) (e : Event) : Bool :=
  match eventTime e with
  | some t => decide (t < o.placedAt)
  | Option.none => false

/-- Modelled from the spec: one step of the §4.2 state machine.  Terminal
orders reject every event with `TerminalStateError`; a timestamp before
`placedAt` is a `StaleEventError` (§4.1); stage regressions fail with
`InvalidStageTransitionError` leaving the stage unchanged, while an equal
stage is an error-free no-op (§8); a repeated manual mark fails with
`DuplicateMarkError`; pickup before any ready mark retroactively flags the
order with `correctedReadyAt = pickupTime` (§4.2). -/
def stepOrder (cfg : EstimatorConfig) (o : Order) (e : Event) :
    Except EstError Order :=
  if isTerminal o.state then Except.error EstError.terminalState
  else if isStale o e then Except.error EstError.staleEvent
  else stepOrderCore cfg o e

/-- Apply an event: on error the order is left unchanged and the error is
returned to the caller (§7: per-event errors never abort processing). -/
def applyEvent (cfg : EstimatorConfig) (o : Order) (e : Event) :
    Order × Option EstError :=
  match stepOrder cfg o e with
  | Except.ok o2 => (o2, Option.none)
  | Except.error err => (o, some err)

/-- Run a list of events against a fresh order placed at `t0`. -/
def runEvents (cfg : EstimatorConfig) (t0 : ℚ) (es : List Event) : Order :=
  es.foldl (fun o e => (applyEvent cfg o e).1) (initOrder t0)

/-- The §3 invariant: whenever `correctedReadyAt` is set, it is not earlier
than `placedAt`. -/
def readyInv (o : Order) : Prop :=
  ∀ t, o.correctedReadyAt = some t → o.placedAt ≤ t

/-- The illustrative configuration of the spec: 5-minute proximity window
and 1.2x correction factor. -/
def demoCfg : EstimatorConfig :=
  { proximityBiasWindow := 5, correctionFactor := 1.2 }

/-! ## Theorems -/

/-- Claim C8: `GET /api/stats` is a constant function: every call, regardless
of request contents, headers, or database state, returns the identical JSON
payload with `avgRiderWait` 4.2, `etaErrorP90` 8.5, `orderVolume` 1250,
`activeMerchants` 320, `improvement` 18.5, `liveRush` index 78, status
`High`, and the three fixed sources with volumes 45/32/22 and weights
0.4/0.35/0.25. -/
theorem stats_constant_payload :
    (∀ r1 r2 : Request, statsHandler r1 = statsHandler r2) ∧
    (∀ (db : DbState) (rand : ℕ → ℚ),
      handleRequest db rand { path := "/api/stats", headers := [], body := "" }
        = (db, ApiResponse.stats statsResponse)) ∧
    statsResponse.avgRiderWait = 4.2 ∧
    statsResponse.etaErrorP90 = 8.5 ∧
    statsResponse.orderVolume = 1250 ∧
    statsResponse.activeMerchants = 320 ∧
    statsResponse.improvement = 18.5 ∧
    statsResponse.liveRush.index = 78 ∧
    statsResponse.liveRush.status = "High" ∧
    statsResponse.liveRush.sources.map RushSource.volume = [45, 32, 22] ∧
    statsResponse.liveRush.sources.map RushSource.weight = [0.4, 0.35, 0.25] := by
  refine ⟨fun r1 r2 => rfl, fun db rand => ?_, rfl, rfl, rfl, rfl, rfl, rfl, rfl, rfl, rfl⟩
  rw [handleRequest, if_pos rfl]
  rfl

/-- Claim C10: neither `GET /api/stats` nor `GET /api/simulation/data` reads
from or writes to the orders table: request handling passes the database
state through unchanged, and the startup `CREATE TABLE IF NOT EXISTS` leaves
an existing table (and its rows) untouched, creating an empty one only when
absent. -/
theorem requests_preserve_db :
    (∀ (db : DbState) (rand : ℕ → ℚ) (req : Request),
      (handleRequest db rand req).1 = db) ∧
    (∀ rows : List OrderRow,
      initDb { ordersTable := some rows } = { ordersTable := some rows }) ∧
    initDb { ordersTable := Option.none } = { ordersTable := some [] } := by
  refine ⟨fun db rand req => ?_, fun rows => rfl, rfl⟩
  rw [handleRequest]
  split
  · rfl
  · split
    · rfl
    · rfl

/-- Claim C1, counterexample: the index served to callers is the hardcoded
78 with status `High`, while `round(Σ volumePct * weight)` over the served
active counts 45/32/22 with weights 0.4/0.35/0.25 is 35 (band `Low`): the
published rush index is not the formula's value, and the served status is
not `Low`. -/
theorem published_rush_index_not_formula :
    statsResponse.liveRush.index = 78 ∧
    statsResponse.liveRush.status = "High" ∧
    rushIndex [(45, 0.4), (32, 0.35), (22, 0.25)] = 35 ∧
    bandName (rushBandOf 35) = "Low" ∧
    statsResponse.liveRush.index
      ≠ ((rushIndex [(45, 0.4), (32, 0.35), (22, 0.25)] : ℤ) : ℚ) ∧
    statsResponse.liveRush.status ≠ "Low" := by
  have h : rushWeighted [(45, 0.4), (32, 0.35), (22, 0.25)] = 3470 / 99 := by
    norm_num [rushWeighted, totalActive, volumePct]
  have h35 : rushIndex [(45, 0.4), (32, 0.35), (22, 0.25)] = 35 := by
    rw [rushIndex, h, round_eq]
    norm_num
    decide
  refine ⟨rfl, rfl, h35, rfl, ?_, by decide⟩
  rw [h35]
  norm_num [statsResponse]

/-- Claim C1, amended: the `/api/stats` handler publishes a fixed rush index
of 78 with status `High` on every call; it does not compute the spec's
formula, which on the served counts 45/32/22 with weights 0.4/0.35/0.25
yields `round(3470/99) = 35` with band `Low`. -/
theorem published_rush_index_hardcoded :
    (∀ req : Request,
      (statsHandler req).liveRush.index = 78 ∧
      (statsHandler req).liveRush.status = "High") ∧
    rushIndex [(45, 0.4), (32, 0.35), (22, 0.25)] = 35 ∧
    rushBandOf 35 = RushBand.low := by
  refine ⟨fun req => ⟨rfl, rfl⟩, ?_, by decide⟩
  have h : rushWeighted [(45, 0.4), (32, 0.35), (22, 0.25)] = 3470 / 99 := by
    norm_num [rushWeighted, totalActive, volumePct]
  rw [rushIndex, h, round_eq]
  norm_num
  decide

/-- Claim C2: the status band is a function of the index alone with
thresholds 40 and 70 — `High` above 70, `Moderate` in (40, 70], `Low` at or
below 40; the only pair the server publishes (index 78, status `High`)
conforms to the band function, and the dashboard's badge coloring agrees
with the `High` band exactly. -/
theorem rush_status_band :
    (∀ i : ℤ,
      (70 < i → rushBandOf i = RushBand.high) ∧
      (40 < i → i ≤ 70 → rushBandOf i = RushBand.moderate) ∧
      (i ≤ 40 → rushBandOf i = RushBand.low)) ∧
    (∀ req : Request,
      (statsHandler req).liveRush.status
        = bandName (rushBandOf (round (statsHandler req).liveRush.index))) ∧
    (∀ i : ℤ,
      liveRushBadgeClass (i : ℚ) = "bg-rose-50 text-rose-600"
        ↔ rushBandOf i = RushBand.high) := by
  refine ⟨fun i => ⟨fun h1 => ?_, fun h2 h3 => ?_, fun h4 => ?_⟩, fun req => ?_, fun i => ?_⟩
  · rw [rushBandOf, if_pos h1]
  · rw [rushBandOf, if_neg (by omega), if_pos h2]
  · rw [rushBandOf, if_neg (by omega), if_neg (by omega)]
  · show "High" = bandName (rushBandOf (round (78 : ℚ)))
    norm_num
    decide
  · rw [liveRushBadgeClass, rushBandOf]
    by_cases h : 70 < i
    · rw [if_pos (show (70 : ℚ) < (i : ℚ) by exact_mod_cast h), if_pos h]
      simp
    · rw [if_neg (show ¬(70 : ℚ) < (i : ℚ) by exact_mod_cast h), if_neg h]
      constructor
      · intro hs
        exact absurd hs (by decide)
      · intro hb
        rcases lt_or_ge 40 i with h40 | h40
        · rw [if_pos h40] at hb
          exact absurd hb (by decide)
        · rw [if_neg (not_lt.mpr h40)] at hb
          exact absurd hb (by decide)

/-- Claim C2 witness: at the published index 78 the band is `High`, and the
served pair conforms. -/
theorem rush_status_band_witness :
    rushBandOf 78 = RushBand.high ∧
    (statsHandler { path := "/api/stats", headers := [], body := "" }).liveRush.status
      = bandName (rushBandOf (round (statsHandler
          { path := "/api/stats", headers := [], body := "" }).liveRush.index)) :=
  ⟨(rush_status_band.1 78).1 (by decide),
   rush_status_band.2.1 { path := "/api/stats", headers := [], body := "" }⟩

/-- Claim C3: the served source weights 0.4/0.35/0.25 sum to exactly 1 and
pass the spec's `± 1e-6` validation, while a weight set summing to 0.9 fails
it with `ConfigValidationError` and the modelled startup refuses to start. -/
theorem source_weights_validated :
    validateSourceWeights (statsResponse.liveRush.sources.map RushSource.weight)
      = Except.ok () ∧
    (statsResponse.liveRush.sources.map RushSource.weight).sum = 1 ∧
    ([0.4, 0.3, 0.2] : List ℚ).sum = 0.9 ∧
    validateSourceWeights [0.4, 0.3, 0.2]
      = Except.error ConfigError.configValidation ∧
    startService { sourceWeights := [0.4, 0.3, 0.2] }
      = Except.error ConfigError.configValidation := by
  refine ⟨?_, by norm_num [statsResponse], by norm_num, ?_, ?_⟩
  · rw [validateSourceWeights, if_pos]
    norm_num [statsResponse]
  · rw [validateSourceWeights, if_neg (by rw [abs_le]; norm_num)]
  · rw [startService, validateSourceWeights, if_neg (by rw [abs_le]; norm_num)]
    rfl

/-- Claim C4: when a rider-proximity timestamp is recorded before the manual
mark and within the configured window, the correction algorithm flags the
order and stretches the elapsed prep time by the correction factor. -/
theorem bias_correction_proximity (cfg : EstimatorConfig)
    (placedAt manualReadyAt r : ℚ) (prox : Option ℚ) (stage : KdsStage)
    (hset : prox = some r) (hlt : r < manualReadyAt)
    (hwin : manualReadyAt - r ≤ cfg.proximityBiasWindow) :
    (runCorrection cfg placedAt manualReadyAt prox stage).biasDetected = true ∧
    (runCorrection cfg placedAt manualReadyAt prox stage).correctedReadyAt
      = placedAt + (manualReadyAt - placedAt) * cfg.correctionFactor := by
  subst hset
  rw [runCorrection]
  simp [hlt, hwin]

/-- Claim C4 witness: the spec's concrete instance with `placedAt = 0`,
`manualReadyAt = 10`, `riderProximityAt = 9`, a 5-minute window and factor
1.2 yields `biasDetected = true` and `correctedReadyAt = 12`. -/
theorem bias_correction_proximity_witness :
    (some (9 : ℚ) = some (9 : ℚ)) ∧ (9 : ℚ) < 10 ∧
    (10 : ℚ) - 9 ≤ demoCfg.proximityBiasWindow ∧
    (runCorrection demoCfg 0 10 (some 9) KdsStage.plating).biasDetected = true ∧
    (runCorrection demoCfg 0 10 (some 9) KdsStage.plating).correctedReadyAt = 12 := by
  have h := bias_correction_proximity demoCfg 0 10 9 (some 9) KdsStage.plating rfl
    (by norm_num) (by norm_num [demoCfg])
  refine ⟨rfl, by norm_num, by norm_num [demoCfg], h.1, ?_⟩
  rw [h.2]
  norm_num [demoCfg]

/-- Claim C6: the rush-index query is a total function — with no active
orders (`totalActive = 0`) it returns the zero state, index 0 with band
`Low` and every per-source volume percentage 0, rather than an error. -/
theorem rush_index_zero_state (counts : List (ℕ × ℚ))
    (h : totalActive counts = 0) :
    getRushIndex counts
      = { index := 0, band := RushBand.low,
          bySource := counts.map (fun _ => (0 : ℚ)) } := by
  have hv : ∀ c : ℕ, volumePct (totalActive counts) c = 0 := by
    intro c
    rw [h, volumePct, if_pos rfl]
  have hw : rushWeighted counts = 0 := by
    rw [rushWeighted]
    refine List.sum_eq_zero ?_
    intro x hx
    obtain ⟨p, hp, rfl⟩ := List.mem_map.1 hx
    rw [hv, zero_mul]
  have hmap : (counts.map fun p => volumePct (totalActive counts) p.1)
      = counts.map (fun _ => (0 : ℚ)) := by
    refine List.map_congr_left ?_
    intro p hp
    exact hv p.1
  rw [getRushIndex, rushIndex, hw, hmap]
  norm_num [clampIndex, rushBandOf]

/-- Claim C6 witness: a restaurant window with three sources and zero active
orders yields index 0, band `Low`, per-source volumes all 0. -/
theorem rush_index_zero_state_witness :
    totalActive [((0 : ℕ), (0.4 : ℚ)), (0, 0.35), (0, 0.25)] = 0 ∧
    getRushIndex [((0 : ℕ), (0.4 : ℚ)), (0, 0.35), (0, 0.25)]
      = { index := 0, band := RushBand.low, bySource := [0, 0, 0] } := by
  have h : totalActive [((0 : ℕ), (0.4 : ℚ)), (0, 0.35), (0, 0.25)] = 0 := rfl
  refine ⟨h, ?_⟩
  rw [rush_index_zero_state _ h]
  rfl

/-- A successful step never lowers the KDS stage rank. -/
theorem stepOrderCore_stage_mono (cfg : EstimatorConfig) (o : Order) (e : Event)
    (o2 : Order) (h : stepOrderCore cfg o e = Except.ok o2) :
    stageRank o.kdsStage ≤ stageRank o2.kdsStage := by
  cases e with
  | kdsStageUpdated t s =>
      rw [stepOrderCore] at h
      split at h
      · exact absurd h (by simp)
      · rename_i hlt
        split at h
        · rename_i hgt
          simp only [Except.ok.injEq] at h
          subst h
          exact le_of_lt hgt
        · simp only [Except.ok.injEq] at h
          subst h
          exact le_refl _
  | riderProximityDetected t =>
      rw [stepOrderCore] at h
      split at h <;>
        (simp only [Except.ok.injEq] at h; subst h; exact le_refl _)
  | manualReadyMarked t =>
      rw [stepOrderCore] at h
      split at h
      · simp only [Except.ok.injEq] at h
        subst h
        exact le_refl _
      · exact absurd h (by simp)
  | orderPickedUp t =>
      rw [stepOrderCore] at h
      split at h <;>
        (simp only [Except.ok.injEq] at h; subst h; exact le_refl _)
  | timeout =>
      rw [stepOrderCore] at h
      simp only [Except.ok.injEq] at h
      subst h
      exact le_refl _

/-- Lift of `stepOrderCore_stage_mono` through the terminal/staleness
guards. -/
theorem stepOrder_stage_mono (cfg : EstimatorConfig) (o : Order) (e : Event)
    (o2 : Order) (h : stepOrder cfg o e = Except.ok o2) :
    stageRank o.kdsStage ≤ stageRank o2.kdsStage := by
  rw [stepOrder] at h
  split at h
  · exact absurd h (by simp)
  · split at h
    · exact absurd h (by simp)
    · exact stepOrderCore_stage_mono cfg o e o2 h

/-- Claim C7: `kdsStage` never decreases — every applied event leaves the
stage rank at least as high as before, and in the concrete scenario,
submitting `KdsStageUpdated(plating)` and then `KdsStageUpdated(started)`
rejects the second event with `InvalidStageTransitionError` while the order
(stage included) is left exactly as it was, at `plating`. -/
theorem kds_stage_monotone :
    (∀ (cfg : EstimatorConfig) (o : Order) (e : Event),
      stageRank o.kdsStage ≤ stageRank ((applyEvent cfg o e).1.kdsStage)) ∧
    ((applyEvent demoCfg (initOrder 0)
        (Event.kdsStageUpdated 1 KdsStage.plating)).1.kdsStage
      = KdsStage.plating) ∧
    (applyEvent demoCfg
        ((applyEvent demoCfg (initOrder 0)
          (Event.kdsStageUpdated 1 KdsStage.plating)).1)
        (Event.kdsStageUpdated 2 KdsStage.started)
      = ((applyEvent demoCfg (initOrder 0)
            (Event.kdsStageUpdated 1 KdsStage.plating)).1,
         some EstError.invalidStageTransition)) := by
  refine ⟨fun cfg o e => ?_, ?_, ?_⟩
  · rcases hstep : stepOrder cfg o e with err | o2
    · rw [applyEvent, hstep]
    · rw [applyEvent, hstep]
      exact stepOrder_stage_mono cfg o e o2 hstep
  · norm_num [applyEvent, stepOrder, stepOrderCore, isStale, initOrder, eventTime,
      isTerminal, stageRank, advanceOnKds]
  · norm_num [applyEvent, stepOrder, stepOrderCore, isStale, initOrder, eventTime,
      isTerminal, stageRank, advanceOnKds]

/-- The correction algorithm's output never precedes `placedAt` when the
mark itself does not and the correction factor is nonnegative. -/
theorem runCorrection_ge (cfg : EstimatorConfig)
    (hf : 0 ≤ cfg.correctionFactor) (p t : ℚ) (prox : Option ℚ)
    (stage : KdsStage) (hpt : p ≤ t) :
    p ≤ (runCorrection cfg p t prox stage).correctedReadyAt := by
  rw [runCorrection.eq_def]
  dsimp only
  split
  · exact le_add_of_nonneg_right (mul_nonneg (sub_nonneg.2 hpt) hf)
  · exact hpt

/-- A successful step never changes `placedAt`. -/
theorem stepOrderCore_placedAt (cfg : EstimatorConfig) (o : Order) (e : Event)
    (o2 : Order) (h : stepOrderCore cfg o e = Except.ok o2) :
    o2.placedAt = o.placedAt := by
  cases e with
  | kdsStageUpdated t s =>
      rw [stepOrderCore] at h
      split at h
      · exact absurd h (by simp)
      · split at h <;>
          (simp only [Except.ok.injEq] at h; subst h; rfl)
  | riderProximityDetected t =>
      rw [stepOrderCore] at h
      split at h <;>
        (simp only [Except.ok.injEq] at h; subst h; rfl)
  | manualReadyMarked t =>
      rw [stepOrderCore] at h
      split at h
      · simp only [Except.ok.injEq] at h
        subst h
        rfl
      · exact absurd h (by simp)
  | orderPickedUp t =>
      rw [stepOrderCore] at h
      split at h <;>
        (simp only [Except.ok.injEq] at h; subst h; rfl)
  | timeout =>
      rw [stepOrderCore] at h
      simp only [Except.ok.injEq] at h
      subst h
      rfl

/-- A successful step preserves the `correctedReadyAt ≥ placedAt`
invariant: the guards establish that every timestamped event is at or after
`placedAt`, and both writers of `correctedReadyAt` (the correction algorithm
and the pickup-before-ready rule) respect the bound. -/
theorem stepOrderCore_readyInv (cfg : EstimatorConfig)
    (hf : 0 ≤ cfg.correctionFactor) (o : Order) (e : Event) (o2 : Order)
    (htime : ∀ t, eventTime e = some t → o.placedAt ≤ t)
    (h : stepOrderCore cfg o e = Except.ok o2) (hinv : readyInv o) :
    readyInv o2 := by
  cases e with
  | kdsStageUpdated t s =>
      rw [stepOrderCore] at h
      split at h
      · exact absurd h (by simp)
      · split at h <;>
          (simp only [Except.ok.injEq] at h; subst h; exact hinv)
  | riderProximityDetected t =>
      rw [stepOrderCore] at h
      split at h <;>
        (simp only [Except.ok.injEq] at h; subst h; exact hinv)
  | manualReadyMarked t =>
      rw [stepOrderCore] at h
      split at h
      · simp only [Except.ok.injEq] at h
        subst h
        intro u hu
        have hx := Option.some.inj hu
        exact hx ▸ runCorrection_ge cfg hf o.placedAt t o.riderProximityAt
          o.kdsStage (htime t rfl)
      · exact absurd h (by simp)
  | orderPickedUp t =>
      rw [stepOrderCore] at h
      split at h
      · simp only [Except.ok.injEq] at h
        subst h
        intro u hu
        have hx := Option.some.inj hu
        exact hx ▸ htime t rfl
      · simp only [Except.ok.injEq] at h
        subst h
        intro u hu
        exact hinv u hu
  | timeout =>
      rw [stepOrderCore] at h
      simp only [Except.ok.injEq] at h
      subst h
      exact hinv

/-- A successful `stepOrder` passed its guards: any timestamp the event
carries is at or after `placedAt`, and the step is the core dispatch. -/
theorem stepOrder_ok_guards (cfg : EstimatorConfig) (o : Order) (e : Event)
    (o2 : Order) (h : stepOrder cfg o e = Except.ok o2) :
    (∀ t, eventTime e = some t → o.placedAt ≤ t) ∧
    stepOrderCore cfg o e = Except.ok o2 := by
  rw [stepOrder] at h
  by_cases hterm : isTerminal o.state = true
  · rw [if_pos hterm] at h
    exact absurd h (by simp)
  · rw [if_neg hterm] at h
    by_cases hstale : isStale o e = true
    · rw [if_pos hstale] at h
      exact absurd h (by simp)
    · rw [if_neg hstale] at h
      refine ⟨fun u hu => ?_, h⟩
      rw [isStale.eq_def, hu] at hstale
      simp only [decide_eq_true_eq] at hstale
      exact not_lt.1 hstale

/-- One applied event preserves the invariant, whether the step succeeds or
is rejected. -/
theorem applyEvent_readyInv (cfg : EstimatorConfig)
    (hf : 0 ≤ cfg.correctionFactor) (o : Order) (e : Event)
    (hinv : readyInv o) : readyInv (applyEvent cfg o e).1 := by
  rcases hstep : stepOrder cfg o e with err | o2
  · rw [applyEvent, hstep]
    exact hinv
  · rw [applyEvent, hstep]
    obtain ⟨htime, hcore⟩ := stepOrder_ok_guards cfg o e o2 hstep
    exact stepOrderCore_readyInv cfg hf o e o2 htime hcore hinv

/-- Claim C5: in every state reachable from placement by any sequence of
events, `correctedReadyAt` is never earlier than `placedAt`, and the
invariant is preserved by every single operation that may recompute
`correctedReadyAt`. -/
theorem corrected_ready_never_early (cfg : EstimatorConfig)
    (hf : 0 ≤ cfg.correctionFactor) (t0 : ℚ) (es : List Event) :
    (∀ (o : Order) (e : Event), readyInv o → readyInv (applyEvent cfg o e).1) ∧
    readyInv (runEvents cfg t0 es) := by
  refine ⟨fun o e hinv => applyEvent_readyInv cfg hf o e hinv, ?_⟩
  rw [runEvents]
  have key : ∀ (es2 : List Event) (o : Order), readyInv o →
      readyInv (es2.foldl (fun o e => (applyEvent cfg o e).1) o) := by
    intro es2
    induction es2 with
    | nil => exact fun o hinv => hinv
    | cons e tl ih =>
        intro o hinv
        exact ih _ (applyEvent_readyInv cfg hf o e hinv)
  refine key es (initOrder t0) ?_
  intro t ht
  exact absurd ht (by simp [initOrder])

/-- Claim C5 witness: with the illustrative configuration, placing at 0 and
marking ready at 10 leaves `correctedReadyAt = some 10`, and the invariant
instance `placedAt ≤ 10` follows by the theorem. -/
theorem corrected_ready_never_early_witness :
    (0 : ℚ) ≤ demoCfg.correctionFactor ∧
    (runEvents demoCfg 0 [Event.manualReadyMarked 10]).correctedReadyAt
      = some 10 ∧
    (runEvents demoCfg 0 [Event.manualReadyMarked 10]).placedAt ≤ 10 := by
  have hf : (0 : ℚ) ≤ demoCfg.correctionFactor := by norm_num [demoCfg]
  have hc : (runEvents demoCfg 0 [Event.manualReadyMarked 10]).correctedReadyAt
      = some 10 := by
    norm_num [runEvents, applyEvent, stepOrder, stepOrderCore, isStale, runCorrection,
      demoCfg, initOrder, eventTime, isTerminal, canMark]
  exact ⟨hf, hc,
    (corrected_ready_never_early demoCfg hf 0 [Event.manualReadyMarked 10]).2
      10 hc⟩

/-- Floor of a `[0,1)` fraction scaled by a positive constant lies in
`[0, c)`. -/
theorem floorMulBounds (q c : ℚ) (z : ℤ) (h0 : 0 ≤ q) (h1 : q < 1)
    (hc : 0 < c) (hcz : c = (z : ℚ)) : 0 ≤ ⌊q * c⌋ ∧ ⌊q * c⌋ < z := by
  refine ⟨Int.floor_nonneg.2 (mul_nonneg h0 hc.le), ?_⟩
  rw [Int.floor_lt, ← hcz]
  have hm := mul_lt_mul_of_pos_right h1 hc
  rw [one_mul] at hm
  exact hm

/-- Claim C9: for any `Math.random()` stream of values in `[0, 1)`,
`GET /api/simulation/data` returns exactly 20 elements whose ids are
`ORD-0` … `ORD-19` in order; each element's status is drawn from
`{preparing, ready, picked_up}`, its progress is an integer in `[0, 99]`,
`isBiased` is a boolean, and its load is an integer in `[1, 10]`. -/
theorem simulation_data_shape (rand : ℕ → ℚ)
    (h : ∀ n, 0 ≤ rand n ∧ rand n < 1) :
    (simulationData rand).length = 20 ∧
    (simulationData rand).map SimOrder.id
      = (List.range 20).map (fun i => "ORD-" ++ toString i) ∧
    ∀ o ∈ simulationData rand,
      (∃ s, o.status = some s ∧ s ∈ simStatuses) ∧
      0 ≤ o.progress ∧ o.progress ≤ 99 ∧
      1 ≤ o.load ∧ o.load ≤ 10 := by
  refine ⟨by simp [simulationData], ?_, ?_⟩
  · simp only [simulationData, List.map_map]
    rfl
  · intro o ho
    rw [simulationData] at ho
    obtain ⟨i, hi, rfl⟩ := List.mem_map.1 ho
    have hs := floorMulBounds (rand (4 * i)) 3 3 (h _).1 (h _).2
      (by norm_num) (by norm_num)
    have hp := floorMulBounds (rand (4 * i + 1)) 100 100 (h _).1 (h _).2
      (by norm_num) (by norm_num)
    have hl := floorMulBounds (rand (4 * i + 3)) 10 10 (h _).1 (h _).2
      (by norm_num) (by norm_num)
    refine ⟨?_, hp.1, ?_, ?_, ?_⟩
    · show ∃ s, jsIndex simStatuses ⌊rand (4 * i) * 3⌋ = some s ∧ s ∈ simStatuses
      rw [jsIndex, if_pos hs.1]
      have hlt : (⌊rand (4 * i) * 3⌋).toNat < simStatuses.length := by
        simp only [simStatuses, List.length]
        omega
      exact ⟨simStatuses.get ⟨_, hlt⟩, List.get?_eq_get hlt, List.get_mem _ _ _⟩
    · show ⌊rand (4 * i + 1) * 100⌋ ≤ 99
      have h2 := hp.2
      omega
    · show 1 ≤ ⌊rand (4 * i + 3) * 10⌋ + 1
      have h1b := hl.1
      omega
    · show ⌊rand (4 * i + 3) * 10⌋ + 1 ≤ 10
      have h2 := hl.2
      omega

/-- Claim C9 witness: with the constant stream 1/2 (a value in `[0, 1)`),
the payload has 20 elements with ids `ORD-0` … `ORD-19` in order. -/
theorem simulation_data_shape_witness :
    (simulationData (fun _ => (1 : ℚ) / 2)).length = 20 ∧
    (simulationData (fun _ => (1 : ℚ) / 2)).map SimOrder.id
      = (List.range 20).map (fun i => "ORD-" ++ toString i) := by
  have h := simulation_data_shape (fun _ => (1 : ℚ) / 2)
    (fun n => ⟨by norm_num, by norm_num⟩)
  exact ⟨h.1, h.2.1⟩

end Zomathon
